import Mathlib

/-!
Verification of the regression-metric routines of the repository
(notebook `Training_and_Test_Errors.ipynb` and its MetricsModule
specification).

The notebook computes

  mse  = ((y_train - y_train_) ** 2).mean()
  rmse = np.sqrt(mse)

and gives, in its mathematics cell, the formulas

  MAE = mean of |y - y_hat|
  R^2 = 1 - (mean of (y - y_hat)^2) / (mean of (y - ybar)^2).

The packaged MetricsModule (the four functions and their error taxonomy:
`DimensionMismatch`, `EmptyInput`, `DegenerateVariance`) does not appear
as code in the repository, so its fallible signatures are modelled from
the spec, while each numeric formula is taken from the notebook.

Numbers are modelled as exact rationals; the square root in RMSE forces
the real numbers there.
-/

namespace Metrics

/-- The error taxonomy of the MetricsModule.
Modelled from the spec: `DimensionMismatch` is raised when the two input
vectors differ in length, `EmptyInput` when a vector has length 0,
`DegenerateVariance` by `r_squared` when the true-label vector is
constant. -/
inductive MetricError where
  | DimensionMismatch : MetricError
  | EmptyInput : MetricError
  | DegenerateVariance : MetricError
  deriving DecidableEq, Repr

/-- Arithmetic mean of a list of rationals, as in `.mean()` of the
notebook: sum divided by length. -/
def mean (l : List ℚ) : ℚ := l.sum / l.length

/-- Mean squared error.  The value on the happy path embeds the
notebook's `((y_train - y_train_) ** 2).mean()` (cell-8): squared
pointwise differences, averaged.  Modelled from the spec: the
`DimensionMismatch` and `EmptyInput` failures of the MetricsModule. -/
def mean_squared_error (y y_hat : List ℚ) : Except MetricError ℚ :=
  if y.length ≠ y_hat.length then .error .DimensionMismatch
  else if y.length = 0 then .error .EmptyInput
  else .ok (mean ((y.zip y_hat).map fun p => (p.1 - p.2) ^ 2))

/-- Root mean squared error, the notebook's `rmse = np.sqrt(mse)`
(cell-12): the square root of the MSE, failures passed through. -/
noncomputable def root_mean_squared_error (y y_hat : List ℚ) :
    Except MetricError ℝ :=
  (mean_squared_error y y_hat).map fun m => Real.sqrt (m : ℝ)

/-- Mean absolute error, the notebook's `MAE = mean of |y - y_hat|`
(cell-2).  Modelled from the spec: the failure conditions, shared with
`mean_squared_error`. -/
def mean_absolute_error (y y_hat : List ℚ) : Except MetricError ℚ :=
  if y.length ≠ y_hat.length then .error .DimensionMismatch
  else if y.length = 0 then .error .EmptyInput
  else .ok (mean ((y.zip y_hat).map fun p => |p.1 - p.2|))

/-- Coefficient of determination, the notebook's
`R^2 = 1 - (mean of (y - y_hat)^2) / (mean of (y - ybar)^2)` (cell-2).
Modelled from the spec: the failure conditions, among them
`DegenerateVariance` when the denominator (the variance of `y`) is 0. -/
def r_squared (y y_hat : List ℚ) : Except MetricError ℚ :=
  if y.length ≠ y_hat.length then .error .DimensionMismatch
  else if y.length = 0 then .error .EmptyInput
  else
    let ybar := mean y
    let ssTot := mean (y.map fun v => (v - ybar) ^ 2)
    if ssTot = 0 then .error .DegenerateVariance
    else .ok (1 - mean ((y.zip y_hat).map fun p => (p.1 - p.2) ^ 2) / ssTot)

/-- A vector is constant when any two of its entries agree. -/
def IsConstant (y : List ℚ) : Prop := ∀ a ∈ y, ∀ b ∈ y, a = b

instance (y : List ℚ) : Decidable (IsConstant y) := by
  unfold IsConstant; infer_instance

instance : DecidableEq (Except MetricError ℚ) := fun a b =>
  match a, b with
  | .ok x, .ok y => decidable_of_iff (x = y) (by simp)
  | .ok _, .error _ => isFalse (by simp)
  | .error _, .ok _ => isFalse (by simp)
  | .error e, .error f => decidable_of_iff (e = f) (by simp)

/-! ### Helper lemmas -/

lemma sum_eq_zero_iff_of_nonneg (l : List ℚ) (h : ∀ x ∈ l, 0 ≤ x) :
    l.sum = 0 ↔ ∀ x ∈ l, x = 0 := by
  induction l with
  | nil => simp
  | cons a t ih =>
    simp only [List.mem_cons, forall_eq_or_imp] at h
    have hts : 0 ≤ t.sum := List.sum_nonneg h.2
    simp only [List.sum_cons, List.mem_cons, forall_eq_or_imp]
    constructor
    · intro hs
      have ha : a = 0 := le_antisymm (by linarith) h.1
      have ht : t.sum = 0 := by linarith
      exact ⟨ha, (ih h.2).mp ht⟩
    · rintro ⟨ha, hall⟩
      rw [ha, (ih h.2).mpr hall, add_zero]

lemma length_cast_ne_zero (l : List ℚ) (hl : l ≠ []) : (l.length : ℚ) ≠ 0 := by
  have : l.length ≠ 0 := fun hc => hl (List.length_eq_zero.mp hc)
  exact_mod_cast this

lemma mean_eq_zero_iff_of_nonneg (l : List ℚ) (hl : l ≠ []) (h : ∀ x ∈ l, 0 ≤ x) :
    mean l = 0 ↔ ∀ x ∈ l, x = 0 := by
  unfold mean
  rw [div_eq_zero_iff, or_iff_left (length_cast_ne_zero l hl),
    sum_eq_zero_iff_of_nonneg l h]

lemma mean_nonneg (l : List ℚ) (h : ∀ x ∈ l, 0 ≤ x) : 0 ≤ mean l :=
  div_nonneg (List.sum_nonneg h) (Nat.cast_nonneg _)

lemma mean_const (l : List ℚ) (hl : l ≠ []) (a : ℚ) (h : ∀ x ∈ l, x = a) :
    mean l = a := by
  unfold mean
  rw [List.sum_eq_card_nsmul l a h, nsmul_eq_mul,
    mul_div_cancel_left₀ a (length_cast_ne_zero l hl)]

lemma mean_replicate_zero (n : ℕ) : mean (List.replicate n 0) = 0 := by
  unfold mean
  rw [List.sum_replicate, smul_zero, zero_div]

lemma variance_eq_zero_iff (y : List ℚ) (hy : y ≠ []) :
    mean (y.map fun v => (v - mean y) ^ 2) = 0 ↔ IsConstant y := by
  have hnn : ∀ x ∈ y.map (fun v => (v - mean y) ^ 2), 0 ≤ x := by
    intro x hx
    rcases List.mem_map.mp hx with ⟨v, _, rfl⟩
    positivity
  have hne : y.map (fun v => (v - mean y) ^ 2) ≠ [] := by
    simpa [List.map_eq_nil_iff] using hy
  rw [mean_eq_zero_iff_of_nonneg _ hne hnn]
  constructor
  · intro h a ha b hb
    have ha2 : (a - mean y) ^ 2 = 0 := h _ (List.mem_map_of_mem _ ha)
    have hb2 : (b - mean y) ^ 2 = 0 := h _ (List.mem_map_of_mem _ hb)
    have ha0 : a = mean y :=
      sub_eq_zero.mp ((pow_eq_zero_iff (two_ne_zero)).mp ha2)
    have hb0 : b = mean y :=
      sub_eq_zero.mp ((pow_eq_zero_iff (two_ne_zero)).mp hb2)
    rw [ha0, hb0]
  · intro hc x hx
    rcases List.mem_map.mp hx with ⟨v, hv, rfl⟩
    have hall : ∀ w ∈ y, w = v := fun w hw => hc w hw v hv
    rw [mean_const y hy v hall, sub_self]
    ring

lemma zip_map_sq_diff_eq (y : List ℚ) :
    ∀ yh : List ℚ, y.length = yh.length →
      (y.zip yh).map (fun p => (p.1 - p.2) ^ 2)
        = (List.range y.length).map (fun i => (y.getD i 0 - yh.getD i 0) ^ 2) := by
  induction y with
  | nil => intro yh h; simp
  | cons a t ih =>
    intro yh h
    cases yh with
    | nil => simp at h
    | cons b u =>
      have h1 : t.length = u.length := by simpa using h
      simp only [List.zip_cons_cons, List.map_cons, List.length_cons,
        List.range_succ_eq_map, List.map_map, Function.comp_def,
        Nat.succ_eq_add_one, List.getD_cons_zero, List.getD_cons_succ]
      rw [ih u h1]

lemma zip_map_abs_diff_eq (y : List ℚ) :
    ∀ yh : List ℚ, y.length = yh.length →
      (y.zip yh).map (fun p => |p.1 - p.2|)
        = (List.range y.length).map (fun i => |y.getD i 0 - yh.getD i 0|) := by
  induction y with
  | nil => intro yh h; simp
  | cons a t ih =>
    intro yh h
    cases yh with
    | nil => simp at h
    | cons b u =>
      have h1 : t.length = u.length := by simpa using h
      simp only [List.zip_cons_cons, List.map_cons, List.length_cons,
        List.range_succ_eq_map, List.map_map, Function.comp_def,
        Nat.succ_eq_add_one, List.getD_cons_zero, List.getD_cons_succ]
      rw [ih u h1]

lemma map_sub_sq_eq_range (c : ℚ) (y : List ℚ) :
    y.map (fun v => (v - c) ^ 2)
      = (List.range y.length).map (fun i => (y.getD i 0 - c) ^ 2) := by
  induction y with
  | nil => simp
  | cons a t ih =>
    simp only [List.map_cons, List.length_cons, List.range_succ_eq_map,
      List.map_map, Function.comp_def, Nat.succ_eq_add_one,
      List.getD_cons_zero, List.getD_cons_succ]
    rw [ih]

lemma zip_self_sq_diff (y : List ℚ) :
    (y.zip y).map (fun p => (p.1 - p.2) ^ 2) = List.replicate y.length 0 := by
  induction y with
  | nil => rfl
  | cons a t ih =>
    simp only [List.zip_cons_cons, List.map_cons, List.length_cons,
      List.replicate_succ, sub_self]
    rw [ih]
    norm_num

lemma length_ne_zero_of_ne_nil (y : List ℚ) (hn : y ≠ []) : y.length ≠ 0 :=
  fun hc => hn (List.length_eq_zero.mp hc)

lemma zip_self_abs_diff (y : List ℚ) :
    (y.zip y).map (fun p => |p.1 - p.2|) = List.replicate y.length 0 := by
  induction y with
  | nil => rfl
  | cons a t ih =>
    simp only [List.zip_cons_cons, List.map_cons, List.length_cons,
      List.replicate_succ, sub_self, abs_zero]
    rw [ih]

/-! ### Claim theorems -/

/-- C1: for every pair of equal-length, non-empty vectors `y` and `y_hat`,
`mean_squared_error y y_hat` returns the arithmetic mean of the squared
pointwise differences `(y[i] - y_hat[i])^2` over all positions `i`. -/
theorem mse_is_mean_of_squared_pointwise_diffs (y y_hat : List ℚ)
    (h : y.length = y_hat.length) (hn : y ≠ []) :
    mean_squared_error y y_hat =
      .ok (mean ((List.range y.length).map
        fun i => (y.getD i 0 - y_hat.getD i 0) ^ 2)) := by
  unfold mean_squared_error
  rw [if_neg (by simp [h]), if_neg (length_ne_zero_of_ne_nil y hn),
    zip_map_sq_diff_eq y y_hat h]

/-- Witness for C1, the spec's concrete scenario `y = [1,2,3]`,
`y_hat = [2,2,2]`: MSE is `(1 + 0 + 1)/3 = 2/3`. -/
theorem mse_is_mean_of_squared_pointwise_diffs_witness :
    mean_squared_error [1, 2, 3] [2, 2, 2] = .ok (2 / 3) := by
  have h := mse_is_mean_of_squared_pointwise_diffs [1, 2, 3] [2, 2, 2]
    (by decide) (by decide)
  rw [h]
  norm_num [mean, List.range_succ]

/-- C2: `root_mean_squared_error` returns the non-negative square root of
`mean_squared_error`, and any failure of `mean_squared_error` is
propagated unchanged. -/
theorem rmse_is_sqrt_of_mse (y y_hat : List ℚ) :
    (∀ m : ℚ, mean_squared_error y y_hat = .ok m →
      root_mean_squared_error y y_hat = .ok (Real.sqrt (m : ℝ)) ∧
        (0 : ℝ) ≤ Real.sqrt (m : ℝ)) ∧
    (∀ e : MetricError, mean_squared_error y y_hat = .error e →
      root_mean_squared_error y y_hat = .error e) := by
  constructor
  · intro m hm
    refine ⟨?_, Real.sqrt_nonneg _⟩
    unfold root_mean_squared_error
    rw [hm]
    rfl
  · intro e he
    unfold root_mean_squared_error
    rw [he]
    rfl

/-- Witness for C2: on `y = [1,2]`, `y_hat = [3,4]` the MSE is `4` and the
RMSE is its square root; on mismatched lengths the failure propagates. -/
theorem rmse_is_sqrt_of_mse_witness :
    root_mean_squared_error [1, 2] [3, 4] = .ok (Real.sqrt ((4 : ℚ) : ℝ)) ∧
    root_mean_squared_error [1, 2] [1, 2, 3] = .error .DimensionMismatch := by
  constructor
  · exact ((rmse_is_sqrt_of_mse [1, 2] [3, 4]).1 4
      (by norm_num [mean_squared_error, mean, List.zip])).1
  · exact (rmse_is_sqrt_of_mse [1, 2] [1, 2, 3]).2 .DimensionMismatch
      (by norm_num [mean_squared_error])

/-- C4: for every pair of equal-length, non-empty vectors `y` and `y_hat`,
`mean_absolute_error y y_hat` returns the arithmetic mean of the absolute
pointwise differences `|y[i] - y_hat[i]|` over all positions `i`. -/
theorem mae_is_mean_of_absolute_pointwise_diffs (y y_hat : List ℚ)
    (h : y.length = y_hat.length) (hn : y ≠ []) :
    mean_absolute_error y y_hat =
      .ok (mean ((List.range y.length).map
        fun i => |y.getD i 0 - y_hat.getD i 0|)) := by
  unfold mean_absolute_error
  rw [if_neg (by simp [h]), if_neg (length_ne_zero_of_ne_nil y hn),
    zip_map_abs_diff_eq y y_hat h]

/-- Witness for C4, the spec's concrete scenario `y = [1,2,3]`,
`y_hat = [2,2,2]`: MAE is `(1 + 0 + 1)/3 = 2/3`. -/
theorem mae_is_mean_of_absolute_pointwise_diffs_witness :
    mean_absolute_error [1, 2, 3] [2, 2, 2] = .ok (2 / 3) := by
  have h := mae_is_mean_of_absolute_pointwise_diffs [1, 2, 3] [2, 2, 2]
    (by decide) (by decide)
  rw [h]
  norm_num [mean, List.range_succ]

/-- C3: for every pair of equal-length, non-empty vectors `y` and `y_hat`
with `y` not constant, `r_squared y y_hat` returns
`1 - mean((y[i] - y_hat[i])^2) / mean((y[i] - ybar)^2)` where `ybar` is
the arithmetic mean of `y`. -/
theorem r_squared_formula (y y_hat : List ℚ)
    (h : y.length = y_hat.length) (hn : y ≠ []) (hc : ¬IsConstant y) :
    r_squared y y_hat = .ok (1 -
      mean ((List.range y.length).map
        fun i => (y.getD i 0 - y_hat.getD i 0) ^ 2) /
      mean ((List.range y.length).map
        fun i => (y.getD i 0 - mean y) ^ 2)) := by
  have hvar : mean (y.map fun v => (v - mean y) ^ 2) ≠ 0 :=
    fun hz => hc ((variance_eq_zero_iff y hn).mp hz)
  simp only [r_squared]
  rw [if_neg (by simp [h]), if_neg (length_ne_zero_of_ne_nil y hn),
    if_neg hvar, zip_map_sq_diff_eq y y_hat h, map_sub_sq_eq_range (mean y) y]

/-- Witness for C3, the spec's concrete scenario `y = [1,2,3]`,
`y_hat = [2,2,2]`: the residual mean and the variance are both `2/3`, so
the coefficient of determination is `0`. -/
theorem r_squared_formula_witness :
    r_squared [1, 2, 3] [2, 2, 2] = .ok 0 := by
  have h := r_squared_formula [1, 2, 3] [2, 2, 2]
    (by decide) (by decide) (by decide)
  rw [h]
  norm_num [mean, List.range_succ]

/-- C5: every metric called on vectors of different lengths fails with
`DimensionMismatch`, and called on equal-length vectors one of which is
empty fails with `EmptyInput`; no partial result is produced. -/
theorem metrics_error_conditions (y y_hat : List ℚ) :
    (y.length ≠ y_hat.length →
      mean_squared_error y y_hat = .error .DimensionMismatch ∧
      root_mean_squared_error y y_hat = .error .DimensionMismatch ∧
      mean_absolute_error y y_hat = .error .DimensionMismatch ∧
      r_squared y y_hat = .error .DimensionMismatch) ∧
    (y.length = y_hat.length → y = [] →
      mean_squared_error y y_hat = .error .EmptyInput ∧
      root_mean_squared_error y y_hat = .error .EmptyInput ∧
      mean_absolute_error y y_hat = .error .EmptyInput ∧
      r_squared y y_hat = .error .EmptyInput) := by
  constructor
  · intro hne
    have hmse : mean_squared_error y y_hat = .error .DimensionMismatch := by
      unfold mean_squared_error
      rw [if_pos hne]
    refine ⟨hmse, ?_, ?_, ?_⟩
    · unfold root_mean_squared_error
      rw [hmse]
      rfl
    · unfold mean_absolute_error
      rw [if_pos hne]
    · simp only [r_squared]
      rw [if_pos hne]
  · intro hlen hy
    subst hy
    have hyh : y_hat = [] := List.length_eq_zero.mp hlen.symm
    subst hyh
    refine ⟨rfl, rfl, rfl, rfl⟩

/-- Witness for C5: lengths 3 and 4 give `DimensionMismatch`; two empty
vectors give `EmptyInput`. -/
theorem metrics_error_conditions_witness :
    mean_squared_error [1, 2, 3] [1, 2, 3, 4] = .error .DimensionMismatch ∧
    r_squared ([] : List ℚ) [] = .error .EmptyInput := by
  refine ⟨((metrics_error_conditions [1, 2, 3] [1, 2, 3, 4]).1 (by decide)).1, ?_⟩
  exact ((metrics_error_conditions ([] : List ℚ) []).2 rfl rfl).2.2.2

/-- C6: `r_squared` on a valid call fails with `DegenerateVariance`
exactly when the true-label vector is constant; the other three metrics
never produce `DegenerateVariance`; and `r_squared` on `y = [5,5,5]` with
any `y_hat` of length 3 fails with `DegenerateVariance`. -/
theorem degenerate_variance_iff_constant (y y_hat : List ℚ) :
    (y.length = y_hat.length → y ≠ [] →
      (r_squared y y_hat = .error .DegenerateVariance ↔ IsConstant y)) ∧
    mean_squared_error y y_hat ≠ .error .DegenerateVariance ∧
    root_mean_squared_error y y_hat ≠ .error .DegenerateVariance ∧
    mean_absolute_error y y_hat ≠ .error .DegenerateVariance ∧
    (y_hat.length = 3 →
      r_squared [5, 5, 5] y_hat = .error .DegenerateVariance) := by
  have hmse : mean_squared_error y y_hat ≠ .error .DegenerateVariance := by
    unfold mean_squared_error
    split
    · simp
    · split
      · simp
      · simp
  refine ⟨?_, hmse, ?_, ?_, ?_⟩
  · intro h hn
    simp only [r_squared]
    rw [if_neg (by simp [h]), if_neg (length_ne_zero_of_ne_nil y hn)]
    by_cases hv : mean (y.map fun v => (v - mean y) ^ 2) = 0
    · rw [if_pos hv]
      constructor
      · intro _
        exact (variance_eq_zero_iff y hn).mp hv
      · intro _
        rfl
    · rw [if_neg hv]
      constructor
      · intro hcontra
        exact absurd hcontra (by simp)
      · intro hc
        exact absurd ((variance_eq_zero_iff y hn).mpr hc) hv
  · unfold root_mean_squared_error
    cases hm : mean_squared_error y y_hat with
    | ok v => simp [Except.map]
    | error e =>
      have he : e ≠ .DegenerateVariance := fun hh => hmse (hh ▸ hm)
      simp [Except.map, he]
  · unfold mean_absolute_error
    split
    · simp
    · split
      · simp
      · simp
  · intro h3
    simp only [r_squared]
    rw [if_neg (by simp [h3]), if_neg (by decide), if_pos (by norm_num [mean])]

/-- Witness for C6: the constant vector `[5,5,5]` triggers
`DegenerateVariance`, while the non-constant `[1,2,3]` does not. -/
theorem degenerate_variance_iff_constant_witness :
    r_squared [5, 5, 5] [1, 2, 3] = .error .DegenerateVariance ∧
    r_squared [1, 2, 3] [1, 2, 3] ≠ .error .DegenerateVariance := by
  constructor
  · exact (degenerate_variance_iff_constant [5, 5, 5] [1, 2, 3]).2.2.2.2 (by decide)
  · intro hcontra
    have hiff := (degenerate_variance_iff_constant [1, 2, 3] [1, 2, 3]).1
      (by decide) (by decide)
    exact absurd (hiff.mp hcontra) (by decide)

/-- C7: for every non-empty vector `y`, `mean_squared_error y y = 0` and
`mean_absolute_error y y = 0`, and when `y` is non-constant
`r_squared y y = 1` (identity on perfect predictions). -/
theorem perfect_prediction_identities (y : List ℚ) (hn : y ≠ []) :
    mean_squared_error y y = .ok 0 ∧
    mean_absolute_error y y = .ok 0 ∧
    (¬IsConstant y → r_squared y y = .ok 1) := by
  have h0 := length_ne_zero_of_ne_nil y hn
  refine ⟨?_, ?_, ?_⟩
  · unfold mean_squared_error
    rw [if_neg (by simp), if_neg h0, zip_self_sq_diff, mean_replicate_zero]
  · unfold mean_absolute_error
    rw [if_neg (by simp), if_neg h0, zip_self_abs_diff, mean_replicate_zero]
  · intro hc
    have hvar : mean (y.map fun v => (v - mean y) ^ 2) ≠ 0 :=
      fun hz => hc ((variance_eq_zero_iff y hn).mp hz)
    simp only [r_squared]
    rw [if_neg (by simp), if_neg h0, if_neg hvar, zip_self_sq_diff,
      mean_replicate_zero, zero_div, sub_zero]

/-- Witness for C7, the spec's concrete scenario `y = y_hat = [1,2,3]`:
MSE and MAE are `0` and the coefficient of determination is `1`. -/
theorem perfect_prediction_identities_witness :
    mean_squared_error [1, 2, 3] [1, 2, 3] = .ok 0 ∧
    mean_absolute_error [1, 2, 3] [1, 2, 3] = .ok 0 ∧
    r_squared [1, 2, 3] [1, 2, 3] = .ok 1 := by
  have h := perfect_prediction_identities [1, 2, 3] (by decide)
  exact ⟨h.1, h.2.1, h.2.2 (by decide)⟩

/-- C8: for every pair of equal-length, non-empty vectors,
`mean_squared_error y y_hat = 0` if and only if `y` and `y_hat` agree at
every position. -/
theorem mse_zero_iff_pointwise_equal (y y_hat : List ℚ)
    (h : y.length = y_hat.length) (hn : y ≠ []) :
    (mean_squared_error y y_hat = .ok 0 ↔
      ∀ i, i < y.length → y.getD i 0 = y_hat.getD i 0) := by
  have h0 := length_ne_zero_of_ne_nil y hn
  unfold mean_squared_error
  rw [if_neg (by simp [h]), if_neg h0, zip_map_sq_diff_eq y y_hat h]
  have hne : (List.range y.length).map
      (fun i => (y.getD i 0 - y_hat.getD i 0) ^ 2) ≠ [] := by
    simp [List.map_eq_nil_iff, List.range_eq_nil, h0]
  have hnn : ∀ x ∈ (List.range y.length).map
      (fun i => (y.getD i 0 - y_hat.getD i 0) ^ 2), 0 ≤ x := by
    intro x hx
    rcases List.mem_map.mp hx with ⟨i, _, rfl⟩
    positivity
  simp only [Except.ok.injEq]
  rw [mean_eq_zero_iff_of_nonneg _ hne hnn]
  constructor
  · intro hall i hi
    have hz : (y.getD i 0 - y_hat.getD i 0) ^ 2 = 0 :=
      hall _ (List.mem_map_of_mem _ (List.mem_range.mpr hi))
    exact sub_eq_zero.mp ((pow_eq_zero_iff two_ne_zero).mp hz)
  · intro hpt x hx
    rcases List.mem_map.mp hx with ⟨i, hi, rfl⟩
    rw [hpt i (List.mem_range.mp hi), sub_self]
    ring

/-- Witness for C8: identical vectors give MSE `0`; `[1,2,3]` against
`[2,2,2]` differ at position 0, so the MSE is not `0`. -/
theorem mse_zero_iff_pointwise_equal_witness :
    mean_squared_error [1, 2, 3] [1, 2, 3] = .ok 0 ∧
    mean_squared_error [1, 2, 3] [2, 2, 2] ≠ .ok 0 := by
  constructor
  · exact (mse_zero_iff_pointwise_equal [1, 2, 3] [1, 2, 3]
      (by decide) (by decide)).mpr (by decide)
  · intro hcontra
    exact absurd ((mse_zero_iff_pointwise_equal [1, 2, 3] [2, 2, 2]
      (by decide) (by decide)).mp hcontra) (by decide)

/-- C9: `mean_squared_error`, `root_mean_squared_error` and
`mean_absolute_error` are translation-invariant: adding the same constant
to both vectors leaves each metric unchanged. -/
theorem metrics_translation_invariant (c : ℚ) (y y_hat : List ℚ) :
    mean_squared_error (y.map fun v => v + c) (y_hat.map fun v => v + c)
        = mean_squared_error y y_hat ∧
    root_mean_squared_error (y.map fun v => v + c) (y_hat.map fun v => v + c)
        = root_mean_squared_error y y_hat ∧
    mean_absolute_error (y.map fun v => v + c) (y_hat.map fun v => v + c)
        = mean_absolute_error y y_hat := by
  have hsq : ((y.map fun v => v + c).zip (y_hat.map fun v => v + c)).map
      (fun p => (p.1 - p.2) ^ 2) = (y.zip y_hat).map (fun p => (p.1 - p.2) ^ 2) := by
    rw [List.zip_map, List.map_map]
    refine List.map_congr_left ?_
    intro p _
    simp [Prod.map, add_sub_add_right_eq_sub]
  have habs : ((y.map fun v => v + c).zip (y_hat.map fun v => v + c)).map
      (fun p => |p.1 - p.2|) = (y.zip y_hat).map (fun p => |p.1 - p.2|) := by
    rw [List.zip_map, List.map_map]
    refine List.map_congr_left ?_
    intro p _
    simp [Prod.map, add_sub_add_right_eq_sub]
  have hmse : mean_squared_error (y.map fun v => v + c)
      (y_hat.map fun v => v + c) = mean_squared_error y y_hat := by
    unfold mean_squared_error
    rw [List.length_map, List.length_map, hsq]
  refine ⟨hmse, ?_, ?_⟩
  · unfold root_mean_squared_error
    rw [hmse]
  · unfold mean_absolute_error
    rw [List.length_map, List.length_map, habs]

/-- C10: for every non-constant, non-empty `y` and every equal-length
`y_hat`, `r_squared y y_hat` succeeds with a value at most `1`. -/
theorem r_squared_le_one (y y_hat : List ℚ)
    (h : y.length = y_hat.length) (hn : y ≠ []) (hc : ¬IsConstant y) :
    ∃ r : ℚ, r_squared y y_hat = .ok r ∧ r ≤ 1 := by
  have hvar : mean (y.map fun v => (v - mean y) ^ 2) ≠ 0 :=
    fun hz => hc ((variance_eq_zero_iff y hn).mp hz)
  refine ⟨1 - mean ((y.zip y_hat).map fun p => (p.1 - p.2) ^ 2) /
      mean (y.map fun v => (v - mean y) ^ 2), ?_, ?_⟩
  · simp only [r_squared]
    rw [if_neg (by simp [h]), if_neg (length_ne_zero_of_ne_nil y hn), if_neg hvar]
  · have hnum : 0 ≤ mean ((y.zip y_hat).map fun p => (p.1 - p.2) ^ 2) := by
      refine mean_nonneg _ ?_
      intro x hx
      rcases List.mem_map.mp hx with ⟨p, _, rfl⟩
      positivity
    have hden0 : 0 ≤ mean (y.map fun v => (v - mean y) ^ 2) := by
      refine mean_nonneg _ ?_
      intro x hx
      rcases List.mem_map.mp hx with ⟨v, _, rfl⟩
      positivity
    have hdiv : 0 ≤ mean ((y.zip y_hat).map fun p => (p.1 - p.2) ^ 2) /
        mean (y.map fun v => (v - mean y) ^ 2) :=
      div_nonneg hnum hden0
    linarith

/-- Witness for C10: a poor predictor on `y = [1,2,3]` still gives a
coefficient of determination at most `1`. -/
theorem r_squared_le_one_witness :
    ∃ r : ℚ, r_squared [1, 2, 3] [0, 0, 5] = .ok r ∧ r ≤ 1 :=
  r_squared_le_one [1, 2, 3] [0, 0, 5] (by decide) (by decide) (by decide)

end Metrics
